import Mathlib

/-!
Verification of the real-time event-ingestion subsystem of the mailagent
dashboard (`src/streamlit.py`): the event reducer `process_websocket_updates`,
the reconnecting websocket listener `WebSocketManager._listen`, the inter-thread
mailbox (`queue.Queue` used with one producer and one consumer), and the
API client's `send_manual_reply` timeout policy.

Python dictionaries are embedded as structures with `Option`-typed fields
(absent key = `none`); the processed-email dictionary is embedded as an
association list with Python-dict update semantics (replace in place on an
existing key, append on a new key).
-/

set_option autoImplicit false

namespace MailDashboard

/-- Embeds the nested `reply_response` dict: `final_state.reply_response.body`
read at src/streamlit.py lines 932-934. -/
structure ReplyResponse where
  body : Option String
deriving DecidableEq

/-- Embeds the `final_state` dict inside an `email_processed` result
(src/streamlit.py line 930). -/
structure FinalState where
  reply_response : Option ReplyResponse
deriving DecidableEq

/-- Embeds the `result` dict of an `email_processed` message
(src/streamlit.py lines 926, 929-934; fields `success` / `response_sent`
are read by the toast renderer). -/
structure ResultData where
  success : Option Bool
  response_sent : Option Bool
  final_state : Option FinalState
deriving DecidableEq

/-- Embeds the `record` dict of an `email_processed` message
(src/streamlit.py line 925) together with the `ai_response` key that the
reducer writes into it at line 937. -/
structure EmailRecord where
  message_id : Option String
  sender : Option String
  subject : Option String
  content : Option String
  status : Option String
  timestamp : Option String
  ai_response : Option String
deriving DecidableEq

/-- Embeds the `stats` record carried by some messages and stored wholesale at
src/streamlit.py line 948. -/
structure Stats where
  total_processed : Option Nat
  successful_replies : Option Nat
  manual_reviews : Option Nat
  errors : Option Nat
deriving DecidableEq

/-- A decoded inbound JSON message: a dict with a `type` discriminator and the
free-form fields the reducer reads (src/streamlit.py lines 906-948). -/
structure Message where
  type : Option String
  status : Option String
  record : Option EmailRecord
  result : Option ResultData
  stats : Option Stats
deriving DecidableEq

/-- Embeds the `pending_toast` dict stored at src/streamlit.py lines 941-944. -/
structure ToastData where
  ttype : String
  message : Message
deriving DecidableEq

/-- Embeds `st.session_state.websocket_data` (src/streamlit.py lines 33-39).
The `last_update` wall-clock field is omitted: it records `datetime.now()` and
no claim concerns it. -/
structure WebsocketData where
  connection_status : String
  connected : Bool
  is_processing : Bool
  last_processed_event : Option Message
  latest_events : List Message
  stats : Option Stats
deriving DecidableEq

/-- The mutable session state touched by the reducer: `websocket_data`,
`processed_emails` (a dict keyed by message id, embedded as an association
list in insertion order) and `pending_toast`
(src/streamlit.py lines 33-44, 901-951). -/
structure SessionState where
  websocket_data : WebsocketData
  processed_emails : List (String × EmailRecord)
  pending_toast : Option ToastData
deriving DecidableEq

/-- The empty dict default of `message.get('record', {})`
(src/streamlit.py line 925). -/
def emptyRecord : EmailRecord :=
  { message_id := none, sender := none, subject := none, content := none,
    status := none, timestamp := none, ai_response := none }

/-- Initial `websocket_data` (src/streamlit.py lines 34-39). -/
def initialWebsocketData : WebsocketData :=
  { connection_status := "Disconnected", connected := false,
    is_processing := false, last_processed_event := none,
    latest_events := [], stats := none }

/-- Initial session state (src/streamlit.py lines 33-44). -/
def initialSessionState : SessionState :=
  { websocket_data := initialWebsocketData, processed_emails := [],
    pending_toast := none }

/-- Python-dict assignment `d[k] = v` on the association-list embedding:
replace the value in place when the key is present (keys are unique in a
Python dict, so the first occurrence is the occurrence), append otherwise. -/
def dictInsert : List (String × EmailRecord) → String → EmailRecord →
    List (String × EmailRecord)
  | [], k, v => [(k, v)]
  | p :: rest, k, v =>
      if p.1 = k then (k, v) :: rest else p :: dictInsert rest k v

/-- Python-dict lookup `d.get(k)` on the association-list embedding. -/
def dictGet : List (String × EmailRecord) → String → Option EmailRecord
  | [], _ => none
  | p :: rest, k => if p.1 = k then some p.2 else dictGet rest k

/-- Number of entries of the association list whose key is `k`. -/
def countKey (l : List (String × EmailRecord)) (k : String) : Nat :=
  l.countP (fun p => decide (p.1 = k))

/-- Extraction of the nested AI reply body,
`result.get('final_state',{}).get('reply_response',{}).get('body')` guarded by
the `isinstance` checks (src/streamlit.py lines 928-934). -/
def aiResponseOf (m : Message) : Option String :=
  ((m.result.bind ResultData.final_state).bind FinalState.reply_response).bind
    ReplyResponse.body

/-- The record archived into `processed_emails`: the message's `record` with
`ai_response` overwritten by the extracted reply body
(src/streamlit.py lines 936-938). -/
def storedRecord (m : Message) : EmailRecord :=
  { m.record.getD emptyRecord with ai_response := aiResponseOf m }

/-- One iteration of the drain loop of `process_websocket_updates`
(src/streamlit.py lines 906-951): dispatch on `message.get('type')`, then
replace `stats` wholesale when the message carries a `stats` key. The
archiving guard `if final_record.get('message_id'):` is Python truthiness:
a missing id or the empty string skips the archive. -/
def process_message (s : SessionState) (m : Message) : SessionState :=
  let s1 : SessionState :=
    if m.type = some "connection_status" then
      { s with websocket_data :=
          { s.websocket_data with
              connection_status := m.status.getD "Unknown",
              connected := m.status == some "Connected" } }
    else if m.type = some "processing_started" then
      { s with websocket_data := { s.websocket_data with is_processing := true } }
    else if m.type = some "email_processed" then
      let wd1 : WebsocketData :=
        { s.websocket_data with
            is_processing := false,
            last_processed_event := some m,
            latest_events := (m :: s.websocket_data.latest_events).take 10 }
      let pe : List (String × EmailRecord) :=
        match (m.record.getD emptyRecord).message_id with
        | some mid =>
            if mid = "" then s.processed_emails
            else dictInsert s.processed_emails mid (storedRecord m)
        | none => s.processed_emails
      { websocket_data := wd1, processed_emails := pe,
        pending_toast := some { ttype := "email_processed", message := m } }
    else s
  if m.stats.isSome then
    { s1 with websocket_data := { s1.websocket_data with stats := m.stats } }
  else s1

/-- Draining a batch of mailbox messages: the `while not queue.empty()` loop of
`process_websocket_updates` folds `process_message` over the drained messages
in FIFO order (src/streamlit.py lines 905-951). -/
def foldMessages (s : SessionState) (ms : List Message) : SessionState :=
  ms.foldl process_message s

/-! ## API client: `send_manual_reply` (src/streamlit.py lines 122-135)

The HTTP library is external, so one call is embedded by the outcome of
`requests.post(...)` followed by `raise_for_status()`. In `requests`,
`Timeout` is a subclass of `RequestException`, and the code catches
`Timeout` first. -/

/-- Outcome of the `requests.post` + `raise_for_status` pair inside
`send_manual_reply`: a 2xx response, a raised `Timeout`, or any other raised
`RequestException` (connection error, HTTP error status, ...). -/
inductive ReqOutcome where
  | ok
  | timeout
  | reqError (e : String)
deriving DecidableEq

/-- The `{success, message}` dict `send_manual_reply` returns. -/
structure ApiResult where
  success : Bool
  message : String
deriving DecidableEq

/-- Embeds `APIClient.send_manual_reply` (src/streamlit.py lines 122-135):
every outcome of the request is caught and converted into a returned dict;
a `Timeout` is reported as success by policy. -/
def send_manual_reply : ReqOutcome → ApiResult
  | .ok => { success := true, message := "Reply sent successfully" }
  | .timeout =>
      { success := true,
        message := "Reply sent (request timed out but likely successful)" }
  | .reqError e => { success := false, message := "Request failed: " ++ e }

/-! ## Reconnecting listener: `WebSocketManager._listen`
(src/streamlit.py lines 182-214)

The network is external, so a run of the listener is embedded by the schedule
of what the transport did: each outer-loop iteration is an `Attempt` — either
`websockets.connect` raised, or it succeeded and the inner receive loop saw a
sequence of `RecvItem`s until the connection broke (`closed`) or the stop
event was observed (`stopped`, which can only be the final attempt).
The listener's observable behaviour is the ordered list of actions it
performs: `queue.put` of a listener-generated status dict, `queue.put` of a
decoded server message, or a `websocket.send` of the pong reply. -/

/-- One result of `asyncio.wait_for(websocket.recv(), timeout=30.0)` followed
by `json.loads`: a 30s timeout with no data, a message whose `json.loads`
raised (`malformed`), or a successfully decoded dict `m`. -/
inductive RecvItem where
  | timeout
  | malformed
  | decoded (m : Message)
deriving DecidableEq

/-- How a successful connection's inner receive loop ended: the transport
raised (connection closed/reset), or the stop event was observed. -/
inductive SessionEnd where
  | closed
  | stopped
deriving DecidableEq

/-- One successful connection: the received items, then how it ended. -/
structure ConnSession where
  items : List RecvItem
  ending : SessionEnd
deriving DecidableEq

/-- One iteration of the outer reconnect loop: `websockets.connect` failed, or
succeeded yielding a session. -/
inductive Attempt where
  | connectFail
  | session (cs : ConnSession)
deriving DecidableEq

/-- An observable action of the listener thread. -/
inductive LAction where
  | putStatus (st : String)
  | putData (m : Message)
  | sendPong
deriving DecidableEq

/-- The payload of `websocket.send(json.dumps('{"type":"pong"}'))`
(src/streamlit.py line 197): `json.dumps` applied to a *string* yields the
JSON string literal whose characters are a quote, the braced text, a quote. -/
def pongReply : String := "\"\x7b\\\"type\\\":\\\"pong\\\"\x7d\""

/-- The inner receive loop (src/streamlit.py lines 191-205): a timeout is
healthy idle, a decode failure is logged and discarded, a decoded `ping` is
answered with a pong and not forwarded, and any other decoded message is put
on the queue. -/
def innerTrace : List RecvItem → List LAction
  | [] => []
  | .timeout :: rest => innerTrace rest
  | .malformed :: rest => innerTrace rest
  | .decoded m :: rest =>
      (if m.type = some "ping" then [LAction.sendPong] else [LAction.putData m])
        ++ innerTrace rest

/-- The listener-generated connection-status dict
(`{'type': 'connection_status', 'status': st}`, src/streamlit.py
lines 186, 188, 209, 212). -/
def statusMsg (st : String) : Message :=
  { type := some "connection_status", status := some st, record := none,
    result := none, stats := none }

/-- What the listener publishes when the inner loop ends: `Disconnected` when
the connection broke (src/streamlit.py lines 207-212), nothing when the stop
event was observed. -/
def endActions : SessionEnd → List LAction
  | .closed => [LAction.putStatus "Disconnected"]
  | .stopped => []

/-- The outer reconnect loop (src/streamlit.py lines 184-214): publish
`Connecting...`; on connect failure publish `Disconnected` and retry after the
backoff; on success publish `Connected`, run the inner loop, and publish
`Disconnected` only when the connection broke (a stop observed in the inner
loop exits without publishing further). -/
def listenTrace : List Attempt → List LAction
  | [] => []
  | .connectFail :: rest =>
      LAction.putStatus "Connecting..." :: LAction.putStatus "Disconnected"
        :: listenTrace rest
  | .session cs :: rest =>
      LAction.putStatus "Connecting..." :: LAction.putStatus "Connected"
        :: (innerTrace cs.items ++ endActions cs.ending ++ listenTrace rest)

/-- Selects what an action puts on the mailbox queue. -/
def queueSel : LAction → Option Message
  | .putStatus st => some (statusMsg st)
  | .putData m => some m
  | .sendPong => none

/-- Selects what an action sends back over the websocket. -/
def sendSel : LAction → Option String
  | .sendPong => some pongReply
  | _ => none

/-- Selects a listener-published connection-status value. -/
def statusSel : LAction → Option String
  | .putStatus st => some st
  | _ => none

/-- The messages the listener puts on the mailbox queue, in order: its own
status dicts and the forwarded server messages. -/
def queueOf (attempts : List Attempt) : List Message :=
  (listenTrace attempts).filterMap queueSel

/-- The payloads the listener sends back over the websocket, in order. -/
def sendsOf (attempts : List Attempt) : List String :=
  (listenTrace attempts).filterMap sendSel

/-- The connection-status values the listener itself publishes, in order. -/
def listenerStatuses (attempts : List Attempt) : List String :=
  (listenTrace attempts).filterMap statusSel

/-- Whether a received item is a decoded `ping` control message. -/
def isPing : RecvItem → Bool
  | .decoded m => m.type = some "ping"
  | _ => false

/-- Number of `ping` occurrences in a run of the listener. -/
def pingCount : List Attempt → Nat
  | [] => 0
  | .connectFail :: rest => pingCount rest
  | .session cs :: rest => cs.items.countP isPing + pingCount rest

/-- An attempt after which the outer loop keeps running: a connect failure, or
a session ended by a broken connection (not by the stop event). -/
def notStopped : Attempt → Bool
  | .connectFail => true
  | .session cs => cs.ending = SessionEnd.closed

/-- A well-formed run of the listener: the stop event, which terminates the
outer loop, can end only the last attempt. -/
def wfRun : List Attempt → Bool
  | [] => true
  | [_] => true
  | a :: b :: rest => notStopped a && wfRun (b :: rest)

/-- `chainOk R a l`: starting from state `a`, every adjacent transition along
`l` satisfies `R`. -/
def chainOk (R : String → String → Bool) : String → List String → Bool
  | _, [] => true
  | a, b :: rest => R a b && chainOk R b rest

/-- Modelled from the spec: the status cycle the spec claims,
`Disconnected → Connecting → Connected → Disconnected → ...` and nothing
else. (`Connecting...` is the literal status string the code publishes for
the Connecting state.) -/
def specCycleStep (a b : String) : Bool :=
  (a = "Disconnected" && b = "Connecting...")
    || (a = "Connecting..." && b = "Connected")
    || (a = "Connected" && b = "Disconnected")

/-- The transitions the code actually produces: the spec cycle plus the
connect-failure edge `Connecting → Disconnected`. -/
def codeCycleStep (a b : String) : Bool :=
  specCycleStep a b || (a = "Connecting..." && b = "Disconnected")

/-! ## Inter-thread mailbox (`queue.Queue`, src/streamlit.py lines 156, 186,
200, 905-906)

`queue.Queue` is an external thread-safe FIFO. It is embedded as a list with
atomic operations, and a concurrent execution of the one producer (the
listener's `put`) and the one consumer (the drain loop's `get`) as an
arbitrary interleaving of atomic operations. A `get` is only issued after an
`empty()` check returned false; a `get` against an empty queue is a no-op
here so that arbitrary interleavings are well-defined. -/

/-- History of a mailbox: everything ever pushed, the current queue content,
and everything drained so far, each in order. -/
structure MailboxState where
  pushed : List Message
  pending : List Message
  drained : List Message
deriving DecidableEq

/-- One atomic mailbox operation. -/
inductive QOp where
  | push (m : Message)
  | get
deriving DecidableEq

/-- Effect of one atomic operation on the mailbox history. -/
def qstep (s : MailboxState) : QOp → MailboxState
  | .push m =>
      { s with pushed := s.pushed ++ [m], pending := s.pending ++ [m] }
  | .get =>
      match s.pending with
      | [] => s
      | m :: rest => { s with pending := rest, drained := s.drained ++ [m] }

/-- Run an interleaving of producer pushes and consumer gets from the empty
mailbox. -/
def runOps (ops : List QOp) : MailboxState :=
  ops.foldl qstep { pushed := [], pending := [], drained := [] }

/-! ## Concrete sample data (used by the scenario claim and by witnesses) -/

/-- The record `{message_id:"m1", sender:"a@x.com"}` of the spec's scenario. -/
def sampleRecord : EmailRecord :=
  { emptyRecord with message_id := some "m1", sender := some "a@x.com" }

/-- The result `{success:true, response_sent:true}` of the spec's scenario. -/
def sampleResult : ResultData :=
  { success := some true, response_sent := some true, final_state := none }

/-- The event `{type:"processing_started"}`. -/
def processingStartedMsg : Message :=
  { type := some "processing_started", status := none, record := none,
    result := none, stats := none }

/-- The spec scenario's `email_processed` event for message id `m1`. -/
def emailProcessedMsg : Message :=
  { type := some "email_processed", status := none, record := some sampleRecord,
    result := some sampleResult, stats := none }

/-- A second `email_processed` event for the same id `m1`, from another sender. -/
def emailProcessedMsgB : Message :=
  { type := some "email_processed", status := none,
    record := some { sampleRecord with sender := some "b@y.com" },
    result := some sampleResult, stats := none }

/-- An `email_processed` event whose record has no `message_id` key. -/
def noIdMsg : Message :=
  { type := some "email_processed", status := none, record := some emptyRecord,
    result := none, stats := none }

/-- An `email_processed` event whose record's `message_id` is the empty string. -/
def emptyIdMsg : Message :=
  { type := some "email_processed", status := none,
    record := some { emptyRecord with message_id := some "" },
    result := none, stats := none }

/-- Eleven identical `email_processed` events. -/
def sampleEvents11 : List Message := List.replicate 11 emailProcessedMsg

/-- A concrete well-formed listener run: one failed connect, one session that
later broke, one session ended by the stop event. -/
def sampleRun : List Attempt :=
  [Attempt.connectFail,
   Attempt.session ⟨[RecvItem.timeout, RecvItem.decoded processingStartedMsg,
     RecvItem.malformed], SessionEnd.closed⟩,
   Attempt.session ⟨[], SessionEnd.stopped⟩]

/-! ## Helper lemmas about the association-list dictionary -/

theorem dictGet_dictInsert (l : List (String × EmailRecord)) (k : String) (v : EmailRecord) :
    dictGet (dictInsert l k v) k = some v := by
  induction l with
  | nil => simp [dictInsert, dictGet]
  | cons p rest ih =>
    by_cases hp : p.1 = k
    · simp [dictInsert, dictGet, hp]
    · simp [dictInsert, dictGet, hp, ih]

theorem countKey_eq_zero_of_not_mem (l : List (String × EmailRecord)) (k : String)
    (h : k ∉ l.map Prod.fst) :
    countKey l k = 0 := by
  induction l with
  | nil => rfl
  | cons p rest ih =>
    simp only [List.map_cons, List.mem_cons, not_or] at h
    have : ¬ p.1 = k := fun hh => h.1 hh.symm
    simp [countKey, List.countP_cons, this] at *
    exact ih h.2

theorem countKey_dictInsert (l : List (String × EmailRecord)) (k : String) (v : EmailRecord)
    (h : (l.map Prod.fst).Nodup) :
    countKey (dictInsert l k v) k = 1 := by
  induction l with
  | nil => simp [dictInsert, countKey, List.countP_cons]
  | cons p rest ih =>
    simp only [List.map_cons, List.nodup_cons] at h
    by_cases hp : p.1 = k
    · have hnm : k ∉ rest.map Prod.fst := hp ▸ h.1
      simp [dictInsert, hp, countKey, List.countP_cons]
      intro a b hab hak
      exact hnm (hak ▸ List.mem_map.mpr ⟨(a, b), hab, rfl⟩)
    · simp [dictInsert, hp, countKey, List.countP_cons, hp]
      exact ih h.2

theorem mem_keys_dictInsert (l : List (String × EmailRecord)) (k a : String) (v : EmailRecord)
    (h : a ∈ (dictInsert l k v).map Prod.fst) :
    a = k ∨ a ∈ l.map Prod.fst := by
  induction l with
  | nil => simpa [dictInsert] using h
  | cons p rest ih =>
    by_cases hp : p.1 = k
    · simp only [dictInsert, hp, if_true, List.map_cons, List.mem_cons] at h ⊢
      tauto
    · simp only [dictInsert, hp, if_false, List.map_cons, List.mem_cons] at h ⊢
      rcases h with h | h
      · tauto
      · rcases ih h with h' | h' <;> tauto

theorem nodup_keys_dictInsert (l : List (String × EmailRecord)) (k : String) (v : EmailRecord)
    (h : (l.map Prod.fst).Nodup) :
    ((dictInsert l k v).map Prod.fst).Nodup := by
  induction l with
  | nil => simp [dictInsert]
  | cons p rest ih =>
    simp only [List.map_cons, List.nodup_cons] at h
    by_cases hp : p.1 = k
    · simp only [dictInsert, hp, if_true, List.map_cons, List.nodup_cons]
      exact ⟨hp ▸ h.1, h.2⟩
    · simp only [dictInsert, hp, if_false, List.map_cons, List.nodup_cons]
      refine ⟨fun hm => ?_, ih h.2⟩
      rcases mem_keys_dictInsert rest k p.1 v hm with h' | h'
      · exact hp h'
      · exact h.1 h'

/-! ## Helper lemmas about one reducer step -/

theorem processed_emails_process_email_some (s : SessionState) (m : Message) (mid : String)
    (ht : m.type = some "email_processed")
    (hr : (m.record.getD emptyRecord).message_id = some mid)
    (hne : mid ≠ "") :
    (process_message s m).processed_emails
      = dictInsert s.processed_emails mid (storedRecord m) := by
  simp only [process_message, ht, hr]
  norm_num [hne]
  split <;> rfl

theorem processed_emails_process_email_none (s : SessionState) (m : Message)
    (ht : m.type = some "email_processed")
    (hr : (m.record.getD emptyRecord).message_id = none) :
    (process_message s m).processed_emails = s.processed_emails := by
  simp only [process_message, ht, hr]
  norm_num
  split <;> rfl

theorem processed_emails_process_email_empty (s : SessionState) (m : Message)
    (ht : m.type = some "email_processed")
    (hr : (m.record.getD emptyRecord).message_id = some "") :
    (process_message s m).processed_emails = s.processed_emails := by
  simp only [process_message, ht, hr]
  norm_num
  split <;> rfl

theorem is_processing_process_email (s : SessionState) (m : Message)
    (ht : m.type = some "email_processed") :
    (process_message s m).websocket_data.is_processing = false := by
  simp only [process_message, ht]
  norm_num
  split <;> rfl

theorem latest_events_process_email (s : SessionState) (m : Message)
    (ht : m.type = some "email_processed") :
    (process_message s m).websocket_data.latest_events
      = (m :: s.websocket_data.latest_events).take 10 := by
  simp only [process_message, ht]
  norm_num
  split <;> rfl

theorem latest_events_process_cases (s : SessionState) (m : Message) :
    (process_message s m).websocket_data.latest_events
        = (m :: s.websocket_data.latest_events).take 10
      ∨ (process_message s m).websocket_data.latest_events
        = s.websocket_data.latest_events := by
  simp only [process_message]
  split_ifs <;> simp_all

/-! ## Helper lemmas about the listener trace -/

theorem innerTrace_sends (items : List RecvItem) :
    (innerTrace items).filterMap sendSel
      = List.replicate (items.countP isPing) pongReply := by
  induction items with
  | nil => rfl
  | cons it rest ih =>
    cases it with
    | timeout => simpa [innerTrace, List.countP_cons, isPing] using ih
    | malformed => simpa [innerTrace, List.countP_cons, isPing] using ih
    | decoded m =>
      by_cases hp : m.type = some "ping"
      · simp [innerTrace, hp, List.countP_cons, isPing, List.replicate_succ, sendSel, ih]
      · simp [innerTrace, hp, List.countP_cons, isPing, sendSel, ih]

theorem innerTrace_no_status (items : List RecvItem) :
    (innerTrace items).filterMap statusSel = [] := by
  induction items with
  | nil => rfl
  | cons it rest ih =>
    cases it with
    | timeout => simpa [innerTrace] using ih
    | malformed => simpa [innerTrace] using ih
    | decoded m =>
      by_cases hp : m.type = some "ping"
      · simp [innerTrace, hp, statusSel, ih]
      · simp [innerTrace, hp, statusSel, ih]

theorem innerTrace_queue_no_ping (items : List RecvItem) :
    ((innerTrace items).filterMap queueSel).all
      (fun m => !(decide (m.type = some "ping"))) = true := by
  induction items with
  | nil => rfl
  | cons it rest ih =>
    cases it with
    | timeout => simpa [innerTrace] using ih
    | malformed => simpa [innerTrace] using ih
    | decoded m =>
      by_cases hp : m.type = some "ping"
      · simp [innerTrace, hp, queueSel, ih]
      · simp [innerTrace, hp, queueSel, ih]

theorem sendsOf_eq (attempts : List Attempt) :
    sendsOf attempts = List.replicate (pingCount attempts) pongReply := by
  induction attempts with
  | nil => rfl
  | cons a rest ih =>
    cases a with
    | connectFail =>
      simp only [sendsOf, listenTrace, List.filterMap_cons, sendSel, pingCount]
      exact ih
    | session cs =>
      obtain ⟨items, ed⟩ := cs
      have hend : List.filterMap sendSel (endActions ed) = [] := by
        cases ed <;> rfl
      simp only [sendsOf, listenTrace, List.filterMap_cons, sendSel,
        List.filterMap_append, hend, pingCount]
      rw [innerTrace_sends, show List.filterMap sendSel (listenTrace rest) = sendsOf rest
          from rfl, ih, List.replicate_add]
      simp

theorem queueOf_no_ping (attempts : List Attempt) :
    (queueOf attempts).all (fun m => !(decide (m.type = some "ping"))) = true := by
  induction attempts with
  | nil => rfl
  | cons a rest ih =>
    cases a with
    | connectFail =>
      simp only [queueOf, listenTrace, List.filterMap_cons, queueSel, List.all_cons]
      rw [show List.filterMap queueSel (listenTrace rest) = queueOf rest from rfl, ih]
      rfl
    | session cs =>
      obtain ⟨items, ed⟩ := cs
      have hend : ((endActions ed).filterMap queueSel).all
          (fun m => !(decide (m.type = some "ping"))) = true := by
        cases ed <;> rfl
      simp only [queueOf, listenTrace, List.filterMap_cons, queueSel, List.all_cons,
        List.filterMap_append, List.all_append, Bool.and_eq_true]
      exact ⟨by decide, by decide, ⟨innerTrace_queue_no_ping items, hend⟩, ih⟩

theorem listenerStatuses_connectFail (rest : List Attempt) :
    listenerStatuses (Attempt.connectFail :: rest)
      = "Connecting..." :: "Disconnected" :: listenerStatuses rest := by
  simp [listenerStatuses, listenTrace, List.filterMap_cons, statusSel]

theorem listenerStatuses_session_closed (items : List RecvItem) (rest : List Attempt) :
    listenerStatuses (Attempt.session ⟨items, SessionEnd.closed⟩ :: rest)
      = "Connecting..." :: "Connected" :: "Disconnected" :: listenerStatuses rest := by
  simp [listenerStatuses, listenTrace, List.filterMap_cons, List.filterMap_append,
    statusSel, innerTrace_no_status, endActions]

theorem listenerStatuses_session_stopped (items : List RecvItem) (rest : List Attempt) :
    listenerStatuses (Attempt.session ⟨items, SessionEnd.stopped⟩ :: rest)
      = "Connecting..." :: "Connected" :: listenerStatuses rest := by
  simp [listenerStatuses, listenTrace, List.filterMap_cons, List.filterMap_append,
    statusSel, innerTrace_no_status, endActions]

theorem wfRun_tail (a : Attempt) (rest : List Attempt) (h : wfRun (a :: rest) = true) :
    wfRun rest = true := by
  cases rest with
  | nil => rfl
  | cons b t => exact ((Bool.and_eq_true _ _).mp (by simpa [wfRun] using h)).2

theorem malformed_discard_inner (pre post : List RecvItem) :
    innerTrace (pre ++ RecvItem.malformed :: post) = innerTrace (pre ++ post) := by
  induction pre with
  | nil => rfl
  | cons it t ih =>
    cases it <;> simp [innerTrace, ih]

/-! ## Helper lemma about the mailbox -/

theorem mailbox_inv_aux (ops : List QOp) (s : MailboxState)
    (h : s.drained ++ s.pending = s.pushed) :
    (ops.foldl qstep s).drained ++ (ops.foldl qstep s).pending
      = (ops.foldl qstep s).pushed := by
  induction ops generalizing s with
  | nil => exact h
  | cons op rest ih =>
    apply ih
    cases op with
    | push m => simp [qstep, ← h, List.append_assoc]
    | get =>
      cases hp : s.pending with
      | nil => simpa [qstep, hp] using h
      | cons m t => simp [qstep, hp, ← h, List.append_assoc]

theorem take_append_take (A B : List Message) (n : Nat) :
    (A ++ B.take n).take n = (A ++ B).take n := by
  rw [List.take_append_eq_append_take, List.take_append_eq_append_take,
    List.take_take, Nat.min_eq_left (Nat.sub_le n A.length)]

theorem latest_after_fold_email (es : List Message) (s : SessionState)
    (h : ∀ e ∈ es, e.type = some "email_processed") (hne : es ≠ []) :
    (foldMessages s es).websocket_data.latest_events
      = (es.reverse ++ s.websocket_data.latest_events).take 10 := by
  induction es generalizing s with
  | nil => cases hne rfl
  | cons e rest ih =>
    have he : e.type = some "email_processed" := h e (by simp)
    by_cases hr : rest = []
    · subst hr
      simpa [foldMessages] using latest_events_process_email s e he
    · have hstep : foldMessages s (e :: rest) = foldMessages (process_message s e) rest := rfl
      rw [hstep, ih (process_message s e) (fun x hx => h x (by simp [hx])) hr,
        latest_events_process_email s e he, take_append_take]
      simp [List.append_assoc]

/-! ## Claims -/

/-- Claim C1: folding two `email_processed` events that carry the same
`record.message_id` (in either order, or the same event twice) leaves the
processed-email map with exactly one entry for that id, whose value is the
archived record of the last event folded (last-write-wins). Stated over any
session state whose map has no duplicate keys, as every Python dict has. -/
theorem email_processed_last_write_wins (s : SessionState) (e1 e2 : Message)
    (mid : String) (hne : mid ≠ "")
    (ht1 : e1.type = some "email_processed")
    (ht2 : e2.type = some "email_processed")
    (hr1 : (e1.record.getD emptyRecord).message_id = some mid)
    (hr2 : (e2.record.getD emptyRecord).message_id = some mid)
    (hnd : (s.processed_emails.map Prod.fst).Nodup) :
    countKey (foldMessages s [e1, e2]).processed_emails mid = 1 ∧
    dictGet (foldMessages s [e1, e2]).processed_emails mid
      = some (storedRecord e2) := by
  have h1 : (process_message s e1).processed_emails
      = dictInsert s.processed_emails mid (storedRecord e1) :=
    processed_emails_process_email_some s e1 mid ht1 hr1 hne
  have h2 : (foldMessages s [e1, e2]).processed_emails
      = dictInsert (process_message s e1).processed_emails mid (storedRecord e2) :=
    processed_emails_process_email_some (process_message s e1) e2 mid ht2 hr2 hne
  rw [h2, h1]
  have hnd1 : ((dictInsert s.processed_emails mid (storedRecord e1)).map Prod.fst).Nodup :=
    nodup_keys_dictInsert _ _ _ hnd
  exact ⟨countKey_dictInsert _ _ _ hnd1, dictGet_dictInsert _ _ _⟩

/-- Witness for C1: the two concrete `m1` events, folded from the initial
state, leave exactly one `m1` entry holding the second event's record. -/
theorem email_processed_last_write_wins_witness :
    ("m1" ≠ "") ∧
    (emailProcessedMsg.type = some "email_processed") ∧
    (emailProcessedMsgB.type = some "email_processed") ∧
    ((emailProcessedMsg.record.getD emptyRecord).message_id = some "m1") ∧
    ((emailProcessedMsgB.record.getD emptyRecord).message_id = some "m1") ∧
    ((initialSessionState.processed_emails.map Prod.fst).Nodup) ∧
    (countKey (foldMessages initialSessionState
        [emailProcessedMsg, emailProcessedMsgB]).processed_emails "m1" = 1 ∧
     dictGet (foldMessages initialSessionState
        [emailProcessedMsg, emailProcessedMsgB]).processed_emails "m1"
       = some (storedRecord emailProcessedMsgB)) :=
  ⟨by decide, by decide, by decide, by decide, by decide, by decide,
   email_processed_last_write_wins initialSessionState emailProcessedMsg
     emailProcessedMsgB "m1" (by decide) (by decide) (by decide) (by decide)
     (by decide) (by decide)⟩

/-- Claim C2: after folding more than 10 `email_processed` events, the
recent-events list has exactly 10 entries and equals the last 10 events of
the sequence newest-first (arrival order reversed); moreover folding any
single event never grows the list beyond 10 entries. -/
theorem recent_events_bounded_10 (s : SessionState) (es : List Message)
    (h : ∀ e ∈ es, e.type = some "email_processed") (hlen : 10 < es.length) :
    (foldMessages s es).websocket_data.latest_events.length = 10 ∧
    (foldMessages s es).websocket_data.latest_events
      = (es.drop (es.length - 10)).reverse ∧
    ∀ (s2 : SessionState) (e : Message),
      s2.websocket_data.latest_events.length ≤ 10 →
      (process_message s2 e).websocket_data.latest_events.length ≤ 10 := by
  have hne : es ≠ [] := by
    intro h0
    subst h0
    simp at hlen
  have hl := latest_after_fold_email es s h hne
  have h10 : 10 ≤ es.reverse.length := by
    simp only [List.length_reverse]
    omega
  rw [List.take_append_of_le_length h10] at hl
  refine ⟨?_, ?_, ?_⟩
  · rw [hl]
    simp only [List.length_take, List.length_reverse]
    omega
  · rw [hl]
    exact List.take_reverse
  · intro s2 e hle
    rcases latest_events_process_cases s2 e with hcase | hcase <;> rw [hcase]
    · exact List.length_take_le 10 _
    · exact hle

/-- Witness for C2: eleven concrete `email_processed` events folded from the
initial state. -/
theorem recent_events_bounded_10_witness :
    (∀ e ∈ sampleEvents11, e.type = some "email_processed") ∧
    (10 < sampleEvents11.length) ∧
    ((foldMessages initialSessionState sampleEvents11).websocket_data.latest_events.length
        = 10 ∧
     (foldMessages initialSessionState sampleEvents11).websocket_data.latest_events
        = (sampleEvents11.drop (sampleEvents11.length - 10)).reverse ∧
     ∀ (s2 : SessionState) (e : Message),
       s2.websocket_data.latest_events.length ≤ 10 →
       (process_message s2 e).websocket_data.latest_events.length ≤ 10) :=
  ⟨by decide, by decide,
   recent_events_bounded_10 initialSessionState sampleEvents11 (by decide) (by decide)⟩

/-- Claim C4: a `Timeout` raised by the HTTP request inside
`send_manual_reply` is caught and classified as success with the qualifying
message; it is returned as an ordinary result, never re-raised (the embedded
function is total over every request outcome). -/
theorem send_manual_reply_timeout_is_success :
    (send_manual_reply ReqOutcome.timeout).success = true ∧
    (send_manual_reply ReqOutcome.timeout).message
      = "Reply sent (request timed out but likely successful)" :=
  ⟨rfl, rfl⟩

/-- Claim C7: an `email_processed` event whose record has no `message_id`
clears the processing flag and is prepended to the recent-events list (which
stays capped at 10), while the message-id map is left completely unchanged. -/
theorem email_processed_without_id_frame (s : SessionState) (m : Message)
    (ht : m.type = some "email_processed")
    (hr : (m.record.getD emptyRecord).message_id = none) :
    (process_message s m).websocket_data.is_processing = false ∧
    (process_message s m).websocket_data.latest_events
      = (m :: s.websocket_data.latest_events).take 10 ∧
    (process_message s m).websocket_data.latest_events.head? = some m ∧
    (process_message s m).processed_emails = s.processed_emails := by
  refine ⟨is_processing_process_email s m ht, latest_events_process_email s m ht,
    ?_, processed_emails_process_email_none s m ht hr⟩
  rw [latest_events_process_email s m ht]
  rfl

/-- Witness for C7: the concrete id-less event applied to the initial state. -/
theorem email_processed_without_id_frame_witness :
    (noIdMsg.type = some "email_processed") ∧
    ((noIdMsg.record.getD emptyRecord).message_id = none) ∧
    ((process_message initialSessionState noIdMsg).websocket_data.is_processing = false ∧
     (process_message initialSessionState noIdMsg).websocket_data.latest_events
       = (noIdMsg :: initialSessionState.websocket_data.latest_events).take 10 ∧
     (process_message initialSessionState noIdMsg).websocket_data.latest_events.head?
       = some noIdMsg ∧
     (process_message initialSessionState noIdMsg).processed_emails
       = initialSessionState.processed_emails) :=
  ⟨by decide, by decide,
   email_processed_without_id_frame initialSessionState noIdMsg (by decide) (by decide)⟩

/-- Claim C8: folding `[{type:"processing_started"}, {type:"email_processed",
record:{message_id:"m1", sender:"a@x.com"}, result:{success:true,
response_sent:true}}]` into the initial snapshot clears the processing flag,
leaves one recent event, and archives key `m1`. -/
theorem scenario_processing_then_email :
    (foldMessages initialSessionState
        [processingStartedMsg, emailProcessedMsg]).websocket_data.is_processing
      = false ∧
    (foldMessages initialSessionState
        [processingStartedMsg, emailProcessedMsg]).websocket_data.latest_events.length
      = 1 ∧
    (dictGet (foldMessages initialSessionState
        [processingStartedMsg, emailProcessedMsg]).processed_emails "m1").isSome
      = true := by
  refine ⟨?_, ?_, ?_⟩ <;> decide

/-- Claim C10: an `email_processed` event whose record's `message_id` is the
empty string is treated exactly like one with no id at all: the Python
truthiness guard skips the archive, so the message-id map is unchanged and in
particular never gains an entry under key `""`. -/
theorem empty_string_message_id_not_archived (s : SessionState) (m : Message)
    (ht : m.type = some "email_processed")
    (hr : (m.record.getD emptyRecord).message_id = some "") :
    (process_message s m).processed_emails = s.processed_emails ∧
    dictGet (process_message s m).processed_emails ""
      = dictGet s.processed_emails "" := by
  have h := processed_emails_process_email_empty s m ht hr
  exact ⟨h, by rw [h]⟩

/-- Witness for C10: the concrete empty-id event applied to the initial
state. -/
theorem empty_string_message_id_not_archived_witness :
    (emptyIdMsg.type = some "email_processed") ∧
    ((emptyIdMsg.record.getD emptyRecord).message_id = some "") ∧
    ((process_message initialSessionState emptyIdMsg).processed_emails
        = initialSessionState.processed_emails ∧
     dictGet (process_message initialSessionState emptyIdMsg).processed_emails ""
        = dictGet initialSessionState.processed_emails "") :=
  ⟨by decide, by decide,
   empty_string_message_id_not_archived initialSessionState emptyIdMsg
     (by decide) (by decide)⟩

/-- Claim C3: in every run of the listener, no decoded message of type `ping`
is ever put on the mailbox queue, and the listener sends exactly one pong
reply per `ping` occurrence. -/
theorem ping_suppressed_and_ponged (attempts : List Attempt) :
    (queueOf attempts).all (fun m => !(decide (m.type = some "ping"))) = true ∧
    sendsOf attempts = List.replicate (pingCount attempts) pongReply :=
  ⟨queueOf_no_ping attempts, sendsOf_eq attempts⟩

/-- Counterexample to claim C5 as stated: when `websockets.connect` fails, the
listener publishes `Connecting...` immediately followed by `Disconnected`, a
transition the claimed cycle Disconnected→Connecting→Connected→Disconnected
does not contain. -/
theorem connection_status_spec_cycle_cex :
    chainOk specCycleStep "Disconnected"
      (listenerStatuses [Attempt.connectFail]) = false := by
  decide

/-- Claim C5 (amended): in every well-formed run, each published transition is
in the spec cycle or is the connect-failure edge Connecting→Disconnected;
equivalently the status sequence, started from the initial `Disconnected`
state, only steps along Disconnected→Connecting, Connecting→Connected,
Connecting→Disconnected, Connected→Disconnected. -/
theorem connection_status_transitions (attempts : List Attempt)
    (hwf : wfRun attempts = true) :
    chainOk codeCycleStep "Disconnected" (listenerStatuses attempts) = true := by
  induction attempts with
  | nil => rfl
  | cons a rest ih =>
    have hrest := wfRun_tail a rest hwf
    cases a with
    | connectFail =>
      rw [listenerStatuses_connectFail]
      simp [chainOk, codeCycleStep, specCycleStep, ih hrest]
    | session cs =>
      obtain ⟨items, ed⟩ := cs
      cases ed with
      | closed =>
        rw [listenerStatuses_session_closed]
        simp [chainOk, codeCycleStep, specCycleStep, ih hrest]
      | stopped =>
        cases rest with
        | nil =>
          rw [listenerStatuses_session_stopped]
          rfl
        | cons b t =>
          exfalso
          have := ((Bool.and_eq_true _ _).mp (by simpa [wfRun] using hwf)).1
          simp [notStopped] at this

/-- Witness for the amended C5: a concrete run with a failed connect, a
broken session and a stopped session. -/
theorem connection_status_transitions_witness :
    (wfRun sampleRun = true) ∧
    chainOk codeCycleStep "Disconnected" (listenerStatuses sampleRun) = true :=
  ⟨by decide, connection_status_transitions sampleRun (by decide)⟩

/-- Claim C6: a malformed inbound payload is discarded by the inner receive
loop without pushing anything, and the loop continues with the remaining
traffic, so the listener's whole observable behaviour — queue contents
included — is as if the malformed message had never arrived; no undecodable
payload reaches the reducer. -/
theorem malformed_payload_discarded (pre post : List RecvItem) (ed : SessionEnd)
    (rest : List Attempt) :
    innerTrace (pre ++ RecvItem.malformed :: post) = innerTrace (pre ++ post) ∧
    listenTrace (Attempt.session ⟨pre ++ RecvItem.malformed :: post, ed⟩ :: rest)
      = listenTrace (Attempt.session ⟨pre ++ post, ed⟩ :: rest) ∧
    queueOf (Attempt.session ⟨pre ++ RecvItem.malformed :: post, ed⟩ :: rest)
      = queueOf (Attempt.session ⟨pre ++ post, ed⟩ :: rest) := by
  have h1 := malformed_discard_inner pre post
  have h2 : listenTrace (Attempt.session ⟨pre ++ RecvItem.malformed :: post, ed⟩ :: rest)
      = listenTrace (Attempt.session ⟨pre ++ post, ed⟩ :: rest) := by
    simp [listenTrace, h1]
  exact ⟨h1, h2, by simp [queueOf, h2]⟩

/-- Claim C9: at every point of every interleaving of the producer's pushes
and the consumer's gets, the drained output followed by the still-queued
messages is exactly the pushed sequence — FIFO order preserved, nothing lost,
nothing duplicated. -/
theorem mailbox_fifo_exact (ops : List QOp) :
    (runOps ops).drained ++ (runOps ops).pending = (runOps ops).pushed :=
  mailbox_inv_aux ops _ rfl

end MailDashboard
